import Mathlib

/-!
Shallow embedding of the krwallet transaction-processing engine.

The `Wallet` state machine is translated from `src/wallet/wallet_actor.rs`,
the router/processor phases from `src/wallet/processor.rs`, and the data
model from `src/lib.rs`.  `rust_decimal::Decimal` values are modelled as
exact rationals (ℚ); `HashMap<u32, Transaction>` is modelled as a function
`Nat → Option Transaction`; Rust's in-place mutation with early `return`
becomes explicit state passing: each handler returns the new wallet paired
with `Option ProcessorError` (`none` = `Ok(())`, `some e` = `Err(e)`), the
wallet component being the state the Rust method leaves behind in `self`.
-/

namespace KrWallet

/-- `TransactionType` from `src/lib.rs`. -/
inductive TransactionType
  | deposit
  | withdrawal
  | dispute
  | resolve
  | chargeback
deriving DecidableEq, Repr

/-- `Transaction` from `src/lib.rs`: `tx_type`, `client: u16`, `id: u32`
(the `tx` CSV column), optional decimal `amount`, and the mutable
`disputed` flag (default `false`). Identifiers are modelled as `Nat`
(they are only compared for equality, never arithmetically). -/
structure Transaction where
  tx_type : TransactionType
  client : Nat
  id : Nat
  amount : Option ℚ
  disputed : Bool := false
deriving DecidableEq, Repr

/-- The variants of `ProcessorError` (src/lib.rs) reachable in the wallet
state machine and the processor phases, with their data payloads.  String
`message` payloads are reduced to the transaction id they interpolate. -/
inductive ProcessorError
  | invalidAmount (tx_id : Nat)
  | accountLocked (client : Nat)
  | insufficientFunds (available required : ℚ)
  | transactionNotFound (tx_id : Nat)
  | duplicateTransaction (tx_id : Nat)
  | invalidDisputeState
  | fatalError
  | serialization
deriving DecidableEq, Repr

/-- `Wallet` from `src/wallet/wallet_actor.rs`; `Wallet::default()` gives
zero balances, `locked = false` and an empty history. -/
structure Wallet where
  available : ℚ := 0
  held : ℚ := 0
  total : ℚ := 0
  locked : Bool := false
  transactions : Nat → Option Transaction := fun _ => none

/-- `self.transactions.insert(id, tx)` on the `HashMap` model. -/
def insertTx (m : Nat → Option Transaction) (id : Nat) (tx : Transaction) :
    Nat → Option Transaction :=
  fun i => if i = id then some tx else m i

/-- The amount the actor reads out of the record.  In the Rust code this is
`tx.amount.unwrap()`; the processor validates that every Deposit/Withdrawal
carries `Some` amount before dispatch, so the `none` branch is unreachable
there and is modelled by the default `0`. -/
def Transaction.amt (tx : Transaction) : ℚ :=
  tx.amount.getD 0

/-- `Wallet::handle_deposit`. -/
def handle_deposit (w : Wallet) (tx : Transaction) : Wallet × Option ProcessorError :=
  if (w.transactions tx.id).isSome then
    (w, some (.duplicateTransaction tx.id))
  else
    ({ w with available := w.available + tx.amt,
              transactions := insertTx w.transactions tx.id tx }, none)

/-- `Wallet::handle_withdrawl` (sic, the source's spelling). -/
def handle_withdrawl (w : Wallet) (tx : Transaction) : Wallet × Option ProcessorError :=
  if (w.transactions tx.id).isSome then
    (w, some (.duplicateTransaction tx.id))
  else if w.available < tx.amt then
    (w, some (.insufficientFunds w.available tx.amt))
  else
    ({ w with available := w.available - tx.amt,
              transactions := insertTx w.transactions tx.id tx }, none)

/-- `Wallet::handle_dispute`: look up the record, set `disputed = true`,
then move balances according to the *stored* record's type. -/
def handle_dispute (w : Wallet) (tx_id : Nat) : Wallet × Option ProcessorError :=
  match w.transactions tx_id with
  | none => (w, some (.transactionNotFound tx_id))
  | some tx =>
    let m := insertTx w.transactions tx_id { tx with disputed := true }
    match tx.tx_type with
    | .deposit =>
        ({ w with available := w.available - tx.amt, held := w.held + tx.amt,
                  transactions := m }, none)
    | .withdrawal =>
        ({ w with held := w.held + tx.amt, transactions := m }, none)
    | _ => ({ w with transactions := m }, none)

/-- `Wallet::handle_resolve`: requires the record to be disputed, clears the
flag and reverses the dispute's balance movement. -/
def handle_resolve (w : Wallet) (tx_id : Nat) : Wallet × Option ProcessorError :=
  match w.transactions tx_id with
  | none => (w, some (.transactionNotFound tx_id))
  | some tx =>
    if tx.disputed = false then (w, some .invalidDisputeState)
    else
      let m := insertTx w.transactions tx_id { tx with disputed := false }
      match tx.tx_type with
      | .deposit =>
          ({ w with held := w.held - tx.amt, available := w.available + tx.amt,
                    transactions := m }, none)
      | .withdrawal =>
          ({ w with held := w.held - tx.amt, transactions := m }, none)
      | _ => ({ w with transactions := m }, none)

/-- `Wallet::handle_chargeback`: requires the record to be disputed, clears
the flag, removes the funds from `held` (restoring `available` for a
Withdrawal) and locks the account. -/
def handle_chargeback (w : Wallet) (tx_id : Nat) : Wallet × Option ProcessorError :=
  match w.transactions tx_id with
  | none => (w, some (.transactionNotFound tx_id))
  | some tx =>
    if tx.disputed = false then (w, some .invalidDisputeState)
    else
      let m := insertTx w.transactions tx_id { tx with disputed := false }
      match tx.tx_type with
      | .deposit =>
          ({ w with held := w.held - tx.amt, locked := true,
                    transactions := m }, none)
      | .withdrawal =>
          ({ w with held := w.held - tx.amt, available := w.available + tx.amt,
                    locked := true, transactions := m }, none)
      | _ => ({ w with transactions := m }, none)

/-- `Wallet::process_transaction`: the locked-account guard for
Deposit/Withdrawal, then dispatch on the transaction type. -/
def process_transaction (w : Wallet) (tx : Transaction) : Wallet × Option ProcessorError :=
  if w.locked ∧ (tx.tx_type = .deposit ∨ tx.tx_type = .withdrawal) then
    (w, some (.accountLocked tx.client))
  else
    match tx.tx_type with
    | .deposit => handle_deposit w tx
    | .withdrawal => handle_withdrawl w tx
    | .dispute => handle_dispute w tx.id
    | .resolve => handle_resolve w tx.id
    | .chargeback => handle_chargeback w tx.id

/-- Processing a whole sequence of transactions against one wallet.  Errors
are contained per transaction (the actor loop logs and continues), so each
step keeps the wallet state the handler left behind. -/
def processList (w : Wallet) (txs : List Transaction) : Wallet :=
  txs.foldl (fun w tx => (process_transaction w tx).1) w

/-- `true` iff every transaction in the sequence is accepted when processed
in order starting from `w`. -/
def processListOk (w : Wallet) : List Transaction → Bool
  | [] => true
  | tx :: rest =>
    (process_transaction w tx).2.isNone && processListOk (process_transaction w tx).1 rest

/-- Sum of the amounts of the Deposit transactions in a sequence. -/
def depositSum : List Transaction → ℚ
  | [] => 0
  | tx :: rest => (if tx.tx_type = .deposit then tx.amt else 0) + depositSum rest

/-- Sum of the amounts of the Withdrawal transactions in a sequence. -/
def withdrawalSum : List Transaction → ℚ
  | [] => 0
  | tx :: rest => (if tx.tx_type = .withdrawal then tx.amt else 0) + withdrawalSum rest

/-- `WalletState` from `src/wallet/wallet_actor.rs`: a snapshot row pairing a
client id with its wallet. -/
structure WalletState where
  client_id : Nat
  wallet : Wallet

/-- `WalletActor`: one shard, owning its map of wallets.  The `HashMap<u16,
Wallet>` is modelled as an association list (iteration order abstracted). -/
structure WalletActor where
  wallets : List (Nat × Wallet)

/-- The `Output` arm of `WalletActor::handle`: `std::mem::take` drains the
shard's map, each wallet gets `total = available + held` computed at this
moment, and the snapshot vector is sent back.  Returns the snapshot together
with the actor's state after the take. -/
def handleOutput (a : WalletActor) : List WalletState × WalletActor :=
  (a.wallets.map fun p =>
    { client_id := p.1, wallet := { p.2 with total := p.2.available + p.2.held } },
   { wallets := [] })

namespace TransactionProcessor

/-- The pre-dispatch validation in `TransactionProcessor::process`: a Deposit
or Withdrawal must carry a present, non-negative amount. -/
def validateAmount (tx : Transaction) : Option ProcessorError :=
  if tx.tx_type = .deposit ∨ tx.tx_type = .withdrawal then
    match tx.amount with
    | none => some (.invalidAmount tx.id)
    | some a => if a < 0 then some (.invalidAmount tx.id) else none
  else none

/-- The record loop of `TransactionProcessor::process` over the successfully
deserialized records (rows that fail to parse are skipped before this loop).
`tellOk tx` says whether the `tell` of that record to its shard succeeds;
a validation failure aborts with `InvalidAmount`, a failed `tell` aborts
with `FatalError`, otherwise the loop continues. -/
def process (txs : List Transaction) (tellOk : Transaction → Bool) :
    Except ProcessorError Unit :=
  match txs with
  | [] => .ok ()
  | tx :: rest =>
    match validateAmount tx with
    | some e => .error e
    | none => if tellOk tx then process rest tellOk else .error .fatalError

/-- The shard loop of `TransactionProcessor::output`.  Each entry of
`askResults` is the outcome of the `ask` sent to one shard, in shard-index
order.  The Rust loop runs `if let Ok(wallet_state) = actor.ask(..)`:
a failed ask is skipped and the loop continues with the next shard; rows of
successful shards are serialized in order (the sink itself is modelled as
infallible).  The phase therefore always completes with the concatenated
rows of the successful shards. -/
def output (askResults : List (Except ProcessorError (List WalletState))) :
    Except ProcessorError (List WalletState) :=
  .ok (askResults.foldr
    (fun r acc => match r with | .ok ws => ws ++ acc | .error _ => acc) [])

end TransactionProcessor

/-- `Wallet::default()`: zero balances, unlocked, empty history. -/
def Wallet.default : Wallet := {}

/-! Concrete inputs used to exercise the theorems below. -/

/-- A stored deposit record, id 1, amount 10. -/
def txC2 : Transaction := ⟨.deposit, 7, 1, some 10, false⟩

/-- A wallet holding `txC2` in its history. -/
def wC2 : Wallet := { available := 10, transactions := fun i => if i = 1 then some txC2 else none }

/-- A dispute referencing id 1. -/
def dC2 : Transaction := ⟨.dispute, 7, 1, none, false⟩

/-- An unlocked wallet with 5 available and empty history. -/
def wC5 : Wallet := { available := 5 }

/-- A withdrawal of 3, id 2. -/
def txC5 : Transaction := ⟨.withdrawal, 2, 2, some 3, false⟩

/-- A locked wallet. -/
def wC6 : Wallet := { locked := true }

/-- A deposit attempted against the locked wallet. -/
def txC6dep : Transaction := ⟨.deposit, 4, 1, some 1, false⟩

/-- A dispute attempted against the locked wallet. -/
def txC6disp : Transaction := ⟨.dispute, 4, 1, none, false⟩

/-- A dispute referencing an id absent from an empty wallet. -/
def dC10 : Transaction := ⟨.dispute, 1, 5, none, false⟩

/-- A resolve referencing id 1. -/
def rC4 : Transaction := ⟨.resolve, 7, 1, none, false⟩

/-- History of a run: deposit 5 under id 1, then dispute it. -/
def txsC3 : List Transaction :=
  [⟨.deposit, 9, 1, some 5, false⟩, ⟨.dispute, 9, 1, none, false⟩]

/-- A chargeback referencing id 1. -/
def cbC3 : Transaction := ⟨.chargeback, 9, 1, none, false⟩

/-- The record stored under id 1 after the run `txsC3`. -/
def txC3 : Transaction := ⟨.deposit, 9, 1, some 5, true⟩

/-- The wallet's history holds only Deposit and Withdrawal records. -/
def onlyDW (w : Wallet) : Prop :=
  ∀ id tx, w.transactions id = some tx →
    tx.tx_type = .deposit ∨ tx.tx_type = .withdrawal

/-- A locked wallet whose history holds id 1: deposit 5 under id 1,
dispute it, charge it back. -/
def wC7 : Wallet :=
  processList Wallet.default
    [⟨.deposit, 9, 1, some 5, false⟩, ⟨.dispute, 9, 1, none, false⟩,
     ⟨.chargeback, 9, 1, none, false⟩]

/-- A second deposit reusing the stored id 1. -/
def depC7 : Transaction := ⟨.deposit, 9, 1, some 3, false⟩

/-- A wallet with 3 available and 4 held. -/
def wC8 : Wallet := { available := 3, held := 4 }

/-- A shard owning one wallet, for client 7. -/
def aC8 : WalletActor := ⟨[(7, wC8)]⟩

/-- The snapshot row the Output message produces for client 7. -/
def sC8 : WalletState := ⟨7, { wC8 with total := wC8.available + wC8.held }⟩

/-- A snapshot row for client 3 with a default wallet. -/
def sC9 : WalletState := ⟨3, Wallet.default⟩

/-! ### Helper lemmas -/

lemma handle_deposit_err (w : Wallet) (tx : Transaction) (e : ProcessorError)
    (h : (handle_deposit w tx).2 = some e) : (handle_deposit w tx).1 = w := by
  by_cases hc : (w.transactions tx.id).isSome = true
  · simp [handle_deposit, hc]
  · simp [handle_deposit, hc] at h

lemma handle_withdrawl_err (w : Wallet) (tx : Transaction) (e : ProcessorError)
    (h : (handle_withdrawl w tx).2 = some e) : (handle_withdrawl w tx).1 = w := by
  by_cases hc : (w.transactions tx.id).isSome = true
  · simp [handle_withdrawl, hc]
  · by_cases hlt : w.available < tx.amt
    · simp [handle_withdrawl, hc, hlt]
    · simp [handle_withdrawl, hc, hlt] at h

lemma handle_dispute_err (w : Wallet) (tx_id : Nat) (e : ProcessorError)
    (h : (handle_dispute w tx_id).2 = some e) : (handle_dispute w tx_id).1 = w := by
  cases hm : w.transactions tx_id with
  | none => simp [handle_dispute, hm]
  | some tx =>
    cases ht : tx.tx_type <;> simp [handle_dispute, hm, ht] at h

lemma handle_resolve_err (w : Wallet) (tx_id : Nat) (e : ProcessorError)
    (h : (handle_resolve w tx_id).2 = some e) : (handle_resolve w tx_id).1 = w := by
  cases hm : w.transactions tx_id with
  | none => simp [handle_resolve, hm]
  | some tx =>
    by_cases hd : tx.disputed = false
    · simp [handle_resolve, hm, hd]
    · cases ht : tx.tx_type <;> simp [handle_resolve, hm, hd, ht] at h

lemma handle_chargeback_err (w : Wallet) (tx_id : Nat) (e : ProcessorError)
    (h : (handle_chargeback w tx_id).2 = some e) : (handle_chargeback w tx_id).1 = w := by
  cases hm : w.transactions tx_id with
  | none => simp [handle_chargeback, hm]
  | some tx =>
    by_cases hd : tx.disputed = false
    · simp [handle_chargeback, hm, hd]
    · cases ht : tx.tx_type <;> simp [handle_chargeback, hm, hd, ht] at h

lemma handle_deposit_locked (w : Wallet) (tx : Transaction) :
    (handle_deposit w tx).1.locked = w.locked := by
  by_cases hc : (w.transactions tx.id).isSome = true <;> simp [handle_deposit, hc]

lemma handle_withdrawl_locked (w : Wallet) (tx : Transaction) :
    (handle_withdrawl w tx).1.locked = w.locked := by
  by_cases hc : (w.transactions tx.id).isSome = true
  · simp [handle_withdrawl, hc]
  · by_cases hlt : w.available < tx.amt <;> simp [handle_withdrawl, hc, hlt]

lemma handle_dispute_locked (w : Wallet) (tx_id : Nat) :
    (handle_dispute w tx_id).1.locked = w.locked := by
  cases hm : w.transactions tx_id with
  | none => simp [handle_dispute, hm]
  | some tx => cases ht : tx.tx_type <;> simp [handle_dispute, hm, ht]

lemma handle_resolve_locked (w : Wallet) (tx_id : Nat) :
    (handle_resolve w tx_id).1.locked = w.locked := by
  cases hm : w.transactions tx_id with
  | none => simp [handle_resolve, hm]
  | some tx =>
    by_cases hd : tx.disputed = false
    · simp [handle_resolve, hm, hd]
    · cases ht : tx.tx_type <;> simp [handle_resolve, hm, hd, ht]

lemma handle_chargeback_locked (w : Wallet) (tx_id : Nat) (h : w.locked = true) :
    (handle_chargeback w tx_id).1.locked = true := by
  cases hm : w.transactions tx_id with
  | none => simpa [handle_chargeback, hm]
  | some tx =>
    by_cases hd : tx.disputed = false
    · simpa [handle_chargeback, hm, hd]
    · cases ht : tx.tx_type <;> simp [handle_chargeback, hm, hd, ht, h]

/-! ### Claim theorems -/

/-- C2: a Dispute whose `tx_id` is absent fails with `TransactionNotFound`;
otherwise it succeeds, sets the stored record's `disputed` flag, and for a
stored Deposit moves `amount` from `available` to `held`, while for a stored
Withdrawal it only increases `held`, leaving `available` unchanged. -/
theorem C2_dispute_cases (w : Wallet) (d : Transaction) (hd : d.tx_type = .dispute) :
    (w.transactions d.id = none →
      process_transaction w d = (w, some (.transactionNotFound d.id))) ∧
    (∀ tx, w.transactions d.id = some tx →
      (process_transaction w d).2 = none ∧
      (process_transaction w d).1.transactions d.id = some { tx with disputed := true } ∧
      (tx.tx_type = .deposit →
        (process_transaction w d).1.available = w.available - tx.amt ∧
        (process_transaction w d).1.held = w.held + tx.amt) ∧
      (tx.tx_type = .withdrawal →
        (process_transaction w d).1.held = w.held + tx.amt ∧
        (process_transaction w d).1.available = w.available)) := by
  constructor
  · intro hm
    simp [process_transaction, hd, handle_dispute, hm]
  · intro tx hm
    cases ht : tx.tx_type <;>
      simp [process_transaction, hd, handle_dispute, hm, ht, insertTx]

/-- C2 witness: disputing the stored deposit `txC2` in `wC2` succeeds and
moves its amount from `available` to `held`. -/
theorem C2_dispute_cases_witness :
    (process_transaction wC2 dC2).2 = none ∧
    (process_transaction wC2 dC2).1.available = wC2.available - txC2.amt ∧
    (process_transaction wC2 dC2).1.held = wC2.held + txC2.amt := by
  have h := (C2_dispute_cases wC2 dC2 rfl).2 txC2 rfl
  exact ⟨h.1, (h.2.2.1 rfl).1, (h.2.2.1 rfl).2⟩

/-- C5: on an unlocked wallet a Withdrawal fails with `DuplicateTransaction`
when its id is already stored, fails with `InsufficientFunds` when the id is
new and `available < amount`, and otherwise succeeds, debiting `available`
and storing the record; no other outcome exists. -/
theorem C5_withdrawal_cases (w : Wallet) (tx : Transaction) (a : ℚ)
    (hl : w.locked = false) (ht : tx.tx_type = .withdrawal) (ha : tx.amount = some a) :
    ((w.transactions tx.id).isSome = true →
      process_transaction w tx = (w, some (.duplicateTransaction tx.id))) ∧
    (w.transactions tx.id = none → w.available < a →
      process_transaction w tx = (w, some (.insufficientFunds w.available a))) ∧
    (w.transactions tx.id = none → a ≤ w.available →
      process_transaction w tx =
        ({ w with available := w.available - a,
                  transactions := insertTx w.transactions tx.id tx }, none)) := by
  have hamt : tx.amt = a := by simp [Transaction.amt, ha]
  refine ⟨fun hdup => ?_, fun hnew hlt => ?_, fun hnew hge => ?_⟩
  · simp [process_transaction, hl, ht, handle_withdrawl, hdup]
  · simp [process_transaction, hl, ht, handle_withdrawl, hnew, hamt, hlt]
  · simp [process_transaction, hl, ht, handle_withdrawl, hnew, hamt, not_lt.mpr hge]

/-- C5 witness: withdrawing 3 from `wC5` (5 available, fresh id) succeeds
and debits `available`. -/
theorem C5_withdrawal_cases_witness :
    process_transaction wC5 txC5 =
      ({ wC5 with available := wC5.available - 3,
                  transactions := insertTx wC5.transactions txC5.id txC5 }, none) :=
  (C5_withdrawal_cases wC5 txC5 3 rfl rfl rfl).2.2 rfl (by norm_num [wC5])

/-- C6: `locked` is monotonic (no operation resets it), a locked wallet
rejects every Deposit and Withdrawal with `AccountLocked` without state
change, and Dispute/Resolve/Chargeback bypass the lock guard entirely. -/
theorem C6_locked_monotonic_guard :
    (∀ w tx, w.locked = true → (process_transaction w tx).1.locked = true) ∧
    (∀ w tx, w.locked = true → (tx.tx_type = .deposit ∨ tx.tx_type = .withdrawal) →
      process_transaction w tx = (w, some (.accountLocked tx.client))) ∧
    (∀ w tx, tx.tx_type = .dispute →
      process_transaction w tx = handle_dispute w tx.id) ∧
    (∀ w tx, tx.tx_type = .resolve →
      process_transaction w tx = handle_resolve w tx.id) ∧
    (∀ w tx, tx.tx_type = .chargeback →
      process_transaction w tx = handle_chargeback w tx.id) := by
  refine ⟨fun w tx hl => ?_, fun w tx hl hdw => ?_, fun w tx ht => ?_,
    fun w tx ht => ?_, fun w tx ht => ?_⟩
  · cases ht : tx.tx_type
    · simp [process_transaction, hl, ht]
    · simp [process_transaction, hl, ht]
    · simpa [process_transaction, hl, ht] using handle_dispute_locked w tx.id ▸ hl
    · simpa [process_transaction, hl, ht] using handle_resolve_locked w tx.id ▸ hl
    · simpa [process_transaction, hl, ht] using handle_chargeback_locked w tx.id hl
  · rcases hdw with ht | ht <;> simp [process_transaction, hl, ht]
  · simp [process_transaction, ht]
  · simp [process_transaction, ht]
  · simp [process_transaction, ht]

/-- C6 witness: the locked wallet `wC6` rejects a deposit with
`AccountLocked`, stays locked, and still routes a dispute to the dispute
handler. -/
theorem C6_locked_monotonic_guard_witness :
    process_transaction wC6 txC6dep = (wC6, some (.accountLocked 4)) ∧
    (process_transaction wC6 txC6dep).1.locked = true ∧
    process_transaction wC6 txC6disp = handle_dispute wC6 txC6disp.id :=
  ⟨C6_locked_monotonic_guard.2.1 wC6 txC6dep rfl (Or.inl rfl),
   C6_locked_monotonic_guard.1 wC6 txC6dep rfl,
   C6_locked_monotonic_guard.2.2.1 wC6 txC6disp rfl⟩

/-- C10: every rejected transaction leaves the wallet exactly as it was —
all five error cases are detected before any mutation. -/
theorem C10_error_no_mutation (w : Wallet) (tx : Transaction) (e : ProcessorError)
    (h : (process_transaction w tx).2 = some e) : (process_transaction w tx).1 = w := by
  by_cases hg : w.locked = true ∧ (tx.tx_type = .deposit ∨ tx.tx_type = .withdrawal)
  · simp [process_transaction, hg.1, hg.2]
  · cases ht : tx.tx_type
    · have hl : w.locked = false := by
        cases hb : w.locked
        · rfl
        · exact absurd ⟨hb, Or.inl ht⟩ hg
      simp only [process_transaction, ht, hl] at h ⊢
      simp only [Bool.false_eq_true, false_and, if_false] at h ⊢
      exact handle_deposit_err w tx e h
    · have hl : w.locked = false := by
        cases hb : w.locked
        · rfl
        · exact absurd ⟨hb, Or.inr ht⟩ hg
      simp only [process_transaction, ht, hl] at h ⊢
      simp only [Bool.false_eq_true, false_and, if_false] at h ⊢
      exact handle_withdrawl_err w tx e h
    · simp only [process_transaction, ht] at h ⊢
      simp only [reduceCtorEq, or_self, and_false, if_false] at h ⊢
      exact handle_dispute_err w tx.id e h
    · simp only [process_transaction, ht] at h ⊢
      simp only [reduceCtorEq, or_self, and_false, if_false] at h ⊢
      exact handle_resolve_err w tx.id e h
    · simp only [process_transaction, ht] at h ⊢
      simp only [reduceCtorEq, or_self, and_false, if_false] at h ⊢
      exact handle_chargeback_err w tx.id e h

/-- C10 witness: a dispute on an absent id fails and leaves the default
wallet untouched. -/
theorem C10_error_no_mutation_witness :
    (process_transaction Wallet.default dC10).2 = some (.transactionNotFound 5) ∧
    (process_transaction Wallet.default dC10).1 = Wallet.default :=
  ⟨rfl, C10_error_no_mutation Wallet.default dC10 (.transactionNotFound 5) rfl⟩

/-- C4: for a stored record, Dispute immediately followed by Resolve on the
same id succeeds in both steps, restores `available` and `held` to their
pre-Dispute values, and leaves the record's `disputed` flag false. -/
theorem C4_dispute_resolve_roundtrip (w : Wallet) (tx dsp rsv : Transaction)
    (hmem : w.transactions dsp.id = some tx)
    (hd : dsp.tx_type = .dispute) (hr : rsv.tx_type = .resolve) (hid : rsv.id = dsp.id) :
    (process_transaction w dsp).2 = none ∧
    (process_transaction (process_transaction w dsp).1 rsv).2 = none ∧
    (process_transaction (process_transaction w dsp).1 rsv).1.available = w.available ∧
    (process_transaction (process_transaction w dsp).1 rsv).1.held = w.held ∧
    (process_transaction (process_transaction w dsp).1 rsv).1.transactions dsp.id =
      some { tx with disputed := false } := by
  have hpd : process_transaction w dsp = handle_dispute w dsp.id := by
    simp [process_transaction, hd]
  have hpr : ∀ v, process_transaction v rsv = handle_resolve v rsv.id := fun v => by
    simp [process_transaction, hr]
  rw [hpd, hpr]
  cases ht : tx.tx_type <;>
    simp [handle_dispute, handle_resolve, hmem, ht, insertTx, hid, Transaction.amt]

/-- C4 witness: disputing and then resolving the stored deposit `txC2`
restores `wC2`'s balances and leaves the record undisputed. -/
theorem C4_dispute_resolve_roundtrip_witness :
    (process_transaction wC2 dC2).2 = none ∧
    (process_transaction (process_transaction wC2 dC2).1 rC4).2 = none ∧
    (process_transaction (process_transaction wC2 dC2).1 rC4).1.available = wC2.available ∧
    (process_transaction (process_transaction wC2 dC2).1 rC4).1.held = wC2.held ∧
    (process_transaction (process_transaction wC2 dC2).1 rC4).1.transactions dC2.id =
      some { txC2 with disputed := false } :=
  C4_dispute_resolve_roundtrip wC2 txC2 dC2 rC4 rfl rfl rfl rfl

lemma onlyDW_default : onlyDW Wallet.default := by
  intro id tx hm
  simp [Wallet.default] at hm

lemma onlyDW_insertTx (w : Wallet) (h : onlyDW w) (id : Nat) (tx : Transaction)
    (htx : tx.tx_type = .deposit ∨ tx.tx_type = .withdrawal) :
    ∀ i tx', insertTx w.transactions id tx i = some tx' →
      tx'.tx_type = .deposit ∨ tx'.tx_type = .withdrawal := by
  intro i tx' hm
  by_cases hi : i = id
  · simp [insertTx, hi] at hm
    exact hm ▸ htx
  · exact h i tx' (by simpa [insertTx, hi] using hm)

lemma onlyDW_handle_deposit (w : Wallet) (tx : Transaction) (h : onlyDW w)
    (ht : tx.tx_type = .deposit) : onlyDW (handle_deposit w tx).1 := by
  by_cases hc : (w.transactions tx.id).isSome = true
  · simpa [handle_deposit, hc] using h
  · intro i tx' hm
    refine onlyDW_insertTx w h tx.id tx (Or.inl ht) i tx' ?_
    simpa [handle_deposit, hc] using hm

lemma onlyDW_handle_withdrawl (w : Wallet) (tx : Transaction) (h : onlyDW w)
    (ht : tx.tx_type = .withdrawal) : onlyDW (handle_withdrawl w tx).1 := by
  by_cases hc : (w.transactions tx.id).isSome = true
  · simpa [handle_withdrawl, hc] using h
  · by_cases hlt : w.available < tx.amt
    · simpa [handle_withdrawl, hc, hlt] using h
    · intro i tx' hm
      refine onlyDW_insertTx w h tx.id tx (Or.inr ht) i tx' ?_
      simpa [handle_withdrawl, hc, hlt] using hm

lemma onlyDW_handle_dispute (w : Wallet) (tx_id : Nat) (h : onlyDW w) :
    onlyDW (handle_dispute w tx_id).1 := by
  cases hm : w.transactions tx_id with
  | none => simpa [handle_dispute, hm] using h
  | some tx0 =>
    have htype := h tx_id tx0 hm
    have hkeep : ∀ i tx', insertTx w.transactions tx_id { tx0 with disputed := true } i
        = some tx' → tx'.tx_type = .deposit ∨ tx'.tx_type = .withdrawal :=
      onlyDW_insertTx w h tx_id { tx0 with disputed := true } (by simpa using htype)
    intro i tx' hm'
    refine hkeep i tx' ?_
    cases ht : tx0.tx_type <;> simpa [handle_dispute, hm, ht] using hm'

lemma onlyDW_handle_resolve (w : Wallet) (tx_id : Nat) (h : onlyDW w) :
    onlyDW (handle_resolve w tx_id).1 := by
  cases hm : w.transactions tx_id with
  | none => simpa [handle_resolve, hm] using h
  | some tx0 =>
    by_cases hd : tx0.disputed = false
    · simpa [handle_resolve, hm, hd] using h
    · have htype := h tx_id tx0 hm
      have hkeep : ∀ i tx', insertTx w.transactions tx_id { tx0 with disputed := false } i
          = some tx' → tx'.tx_type = .deposit ∨ tx'.tx_type = .withdrawal :=
        onlyDW_insertTx w h tx_id { tx0 with disputed := false } (by simpa using htype)
      intro i tx' hm'
      refine hkeep i tx' ?_
      cases ht : tx0.tx_type <;> simpa [handle_resolve, hm, hd, ht] using hm'

lemma onlyDW_handle_chargeback (w : Wallet) (tx_id : Nat) (h : onlyDW w) :
    onlyDW (handle_chargeback w tx_id).1 := by
  cases hm : w.transactions tx_id with
  | none => simpa [handle_chargeback, hm] using h
  | some tx0 =>
    by_cases hd : tx0.disputed = false
    · simpa [handle_chargeback, hm, hd] using h
    · have htype := h tx_id tx0 hm
      have hkeep : ∀ i tx', insertTx w.transactions tx_id { tx0 with disputed := false } i
          = some tx' → tx'.tx_type = .deposit ∨ tx'.tx_type = .withdrawal :=
        onlyDW_insertTx w h tx_id { tx0 with disputed := false } (by simpa using htype)
      intro i tx' hm'
      refine hkeep i tx' ?_
      cases ht : tx0.tx_type <;> simpa [handle_chargeback, hm, hd, ht] using hm'

lemma onlyDW_process (w : Wallet) (tx : Transaction) (h : onlyDW w) :
    onlyDW (process_transaction w tx).1 := by
  by_cases hg : w.locked = true ∧ (tx.tx_type = .deposit ∨ tx.tx_type = .withdrawal)
  · simpa [process_transaction, hg.1, hg.2] using h
  · cases ht : tx.tx_type
    · have hl : w.locked = false := by
        cases hb : w.locked
        · rfl
        · exact absurd ⟨hb, Or.inl ht⟩ hg
      simp only [process_transaction, ht, hl, Bool.false_eq_true, false_and, if_false]
      exact onlyDW_handle_deposit w tx h ht
    · have hl : w.locked = false := by
        cases hb : w.locked
        · rfl
        · exact absurd ⟨hb, Or.inr ht⟩ hg
      simp only [process_transaction, ht, hl, Bool.false_eq_true, false_and, if_false]
      exact onlyDW_handle_withdrawl w tx h ht
    · simp only [process_transaction, ht, reduceCtorEq, or_self, and_false, if_false]
      exact onlyDW_handle_dispute w tx.id h
    · simp only [process_transaction, ht, reduceCtorEq, or_self, and_false, if_false]
      exact onlyDW_handle_resolve w tx.id h
    · simp only [process_transaction, ht, reduceCtorEq, or_self, and_false, if_false]
      exact onlyDW_handle_chargeback w tx.id h

lemma onlyDW_processList (txs : List Transaction) :
    ∀ w, onlyDW w → onlyDW (processList w txs) := by
  induction txs with
  | nil => exact fun w h => h
  | cons tx rest ih => exact fun w h => ih _ (onlyDW_process w tx h)

/-- C3: after any run of the program, a Chargeback on a stored, currently
disputed record succeeds, clears the flag, removes the amount from `held`,
additionally restores `available` when the record is a Withdrawal, and
locks the wallet.  (The history of a reachable wallet contains only
Deposit and Withdrawal records, proved via `onlyDW_processList`.) -/
theorem C3_chargeback_disputed (txs : List Transaction) (cb tx : Transaction)
    (hc : cb.tx_type = .chargeback)
    (hmem : (processList Wallet.default txs).transactions cb.id = some tx)
    (hdisp : tx.disputed = true) :
    (process_transaction (processList Wallet.default txs) cb).2 = none ∧
    (process_transaction (processList Wallet.default txs) cb).1.transactions cb.id =
      some { tx with disputed := false } ∧
    (process_transaction (processList Wallet.default txs) cb).1.held =
      (processList Wallet.default txs).held - tx.amt ∧
    (process_transaction (processList Wallet.default txs) cb).1.available =
      (if tx.tx_type = .withdrawal
        then (processList Wallet.default txs).available + tx.amt
        else (processList Wallet.default txs).available) ∧
    (process_transaction (processList Wallet.default txs) cb).1.locked = true := by
  have hdw := onlyDW_processList txs Wallet.default onlyDW_default cb.id tx hmem
  have hp : process_transaction (processList Wallet.default txs) cb
      = handle_chargeback (processList Wallet.default txs) cb.id := by
    simp [process_transaction, hc]
  rw [hp]
  rcases hdw with ht | ht <;>
    simp [handle_chargeback, hmem, hdisp, ht, insertTx]

/-- C3 witness: after depositing 5 under id 1 and disputing it, a chargeback
succeeds, empties `held`, keeps `available`, and locks the wallet. -/
theorem C3_chargeback_disputed_witness :
    (process_transaction (processList Wallet.default txsC3) cbC3).2 = none ∧
    (process_transaction (processList Wallet.default txsC3) cbC3).1.transactions cbC3.id =
      some { txC3 with disputed := false } ∧
    (process_transaction (processList Wallet.default txsC3) cbC3).1.held =
      (processList Wallet.default txsC3).held - txC3.amt ∧
    (process_transaction (processList Wallet.default txsC3) cbC3).1.available =
      (if txC3.tx_type = .withdrawal
        then (processList Wallet.default txsC3).available + txC3.amt
        else (processList Wallet.default txsC3).available) ∧
    (process_transaction (processList Wallet.default txsC3) cbC3).1.locked = true :=
  C3_chargeback_disputed txsC3 cbC3 txC3 rfl rfl rfl

lemma deposit_ok_shape (w : Wallet) (tx : Transaction) (ht : tx.tx_type = .deposit)
    (h : (process_transaction w tx).2 = none) :
    (process_transaction w tx).1.available = w.available + tx.amt ∧
    (process_transaction w tx).1.held = w.held := by
  have hl : w.locked = false := by
    cases hb : w.locked
    · rfl
    · simp [process_transaction, hb, ht] at h
  by_cases hc : (w.transactions tx.id).isSome = true
  · simp [process_transaction, hl, ht, handle_deposit, hc] at h
  · simp [process_transaction, hl, ht, handle_deposit, hc]

lemma withdrawal_ok_shape (w : Wallet) (tx : Transaction) (ht : tx.tx_type = .withdrawal)
    (h : (process_transaction w tx).2 = none) :
    (process_transaction w tx).1.available = w.available - tx.amt ∧
    (process_transaction w tx).1.held = w.held := by
  have hl : w.locked = false := by
    cases hb : w.locked
    · rfl
    · simp [process_transaction, hb, ht] at h
  by_cases hc : (w.transactions tx.id).isSome = true
  · simp [process_transaction, hl, ht, handle_withdrawl, hc] at h
  · by_cases hlt : w.available < tx.amt
    · simp [process_transaction, hl, ht, handle_withdrawl, hc, hlt] at h
    · simp [process_transaction, hl, ht, handle_withdrawl, hc, hlt]

lemma processList_dw_sum (txs : List Transaction) :
    ∀ w, (∀ tx ∈ txs, tx.tx_type = .deposit ∨ tx.tx_type = .withdrawal) →
      processListOk w txs = true →
      (processList w txs).available = w.available + depositSum txs - withdrawalSum txs ∧
      (processList w txs).held = w.held := by
  induction txs with
  | nil =>
    intro w _ _
    simp [processList, depositSum, withdrawalSum]
  | cons tx rest ih =>
    intro w hdw hok
    have hok1 : (process_transaction w tx).2 = none := by
      have := (Bool.and_eq_true _ _).mp hok
      exact Option.isNone_iff_eq_none.mp this.1
    have hok2 : processListOk (process_transaction w tx).1 rest = true :=
      ((Bool.and_eq_true _ _).mp hok).2
    have hrest := ih (process_transaction w tx).1
      (fun t ht => hdw t (List.mem_cons_of_mem tx ht)) hok2
    have hstep : processList w (tx :: rest) = processList (process_transaction w tx).1 rest :=
      rfl
    rcases hdw tx (List.mem_cons_self tx rest) with ht | ht
    · obtain ⟨hav, hhe⟩ := deposit_ok_shape w tx ht hok1
      rw [hstep]
      refine ⟨?_, by rw [hrest.2, hhe]⟩
      rw [hrest.1, hav, depositSum, withdrawalSum, ht]
      simp only [eq_self_iff_true, if_true, reduceCtorEq, if_false]
      ring
    · obtain ⟨hav, hhe⟩ := withdrawal_ok_shape w tx ht hok1
      rw [hstep]
      refine ⟨?_, by rw [hrest.2, hhe]⟩
      rw [hrest.1, hav, depositSum, withdrawalSum, ht]
      simp only [eq_self_iff_true, if_true, reduceCtorEq, if_false]
      ring

/-- C1: a run consisting only of Deposits and Withdrawals, all of which are
accepted, leaves `available` equal to the sum of the deposit amounts minus
the sum of the withdrawal amounts, and `held` equal to zero. -/
theorem C1_deposit_withdrawal_sum (txs : List Transaction)
    (hdw : ∀ tx ∈ txs, tx.tx_type = .deposit ∨ tx.tx_type = .withdrawal)
    (hok : processListOk Wallet.default txs = true) :
    (processList Wallet.default txs).available = depositSum txs - withdrawalSum txs ∧
    (processList Wallet.default txs).held = 0 := by
  have h := processList_dw_sum txs Wallet.default hdw hok
  constructor
  · rw [h.1]
    simp [Wallet.default]
  · rw [h.2]
    simp [Wallet.default]

/-- C1 witness: depositing 5 (id 1) then withdrawing 3 (id 2) leaves
available = 5 - 3 and held = 0. -/
theorem C1_deposit_withdrawal_sum_witness :
    (processList Wallet.default
      [⟨.deposit, 1, 1, some 5, false⟩, ⟨.withdrawal, 1, 2, some 3, false⟩]).available =
      depositSum [⟨.deposit, 1, 1, some 5, false⟩, ⟨.withdrawal, 1, 2, some 3, false⟩] -
      withdrawalSum [⟨.deposit, 1, 1, some 5, false⟩, ⟨.withdrawal, 1, 2, some 3, false⟩] ∧
    (processList Wallet.default
      [⟨.deposit, 1, 1, some 5, false⟩, ⟨.withdrawal, 1, 2, some 3, false⟩]).held = 0 :=
  C1_deposit_withdrawal_sum _
    (by intro tx ht; simp only [List.mem_cons, List.not_mem_nil, or_false] at ht
        rcases ht with h | h <;> subst h <;> simp)
    (by norm_num [processListOk, process_transaction, handle_deposit, handle_withdrawl,
          insertTx, Transaction.amt, Wallet.default])

lemma insertTx_isSome_of_mem (w : Wallet) (tid : Nat) (tx0 rec : Transaction)
    (hm : w.transactions tid = some tx0) :
    ∀ id, (insertTx w.transactions tid rec id).isSome = true →
      (w.transactions id).isSome = true := by
  intro id h
  by_cases hi : id = tid
  · rw [hi, hm]
    rfl
  · simpa [insertTx, hi] using h

/-- C7 counterexample: in the locked wallet `wC7` (reached by deposit,
dispute, chargeback) a deposit reusing the stored id 1 fails with
`AccountLocked`, not with `DuplicateTransaction` as the claim states. -/
theorem C7_counterexample :
    (wC7.transactions 1).isSome = true ∧
    wC7.locked = true ∧
    (process_transaction wC7 depC7).2 = some (.accountLocked 9) ∧
    (process_transaction wC7 depC7).2 ≠ some (.duplicateTransaction 1) := by
  refine ⟨rfl, rfl, rfl, ?_⟩
  rw [show (process_transaction wC7 depC7).2 = some (.accountLocked 9) from rfl]
  simp

/-- C7 (amended): the history of any run holds only Deposit and Withdrawal
records; a Deposit or Withdrawal reusing a stored id fails — with
`DuplicateTransaction` when the wallet is unlocked, with `AccountLocked`
when it is locked — without replacing the stored record; and
Dispute/Resolve/Chargeback never add a key to the history. -/
theorem C7_history_unique :
    (∀ txs id tx', (processList Wallet.default txs).transactions id = some tx' →
      tx'.tx_type = .deposit ∨ tx'.tx_type = .withdrawal) ∧
    (∀ w tx, (tx.tx_type = .deposit ∨ tx.tx_type = .withdrawal) →
      (w.transactions tx.id).isSome = true →
      (process_transaction w tx).1.transactions tx.id = w.transactions tx.id ∧
      (process_transaction w tx).2 =
        some (if w.locked = true then .accountLocked tx.client
              else .duplicateTransaction tx.id)) ∧
    (∀ w tx id, (tx.tx_type = .dispute ∨ tx.tx_type = .resolve ∨ tx.tx_type = .chargeback) →
      ((process_transaction w tx).1.transactions id).isSome = true →
      (w.transactions id).isSome = true) := by
  refine ⟨fun txs => onlyDW_processList txs Wallet.default onlyDW_default,
    fun w tx htdw hdup => ?_, fun w tx id httt hsome => ?_⟩
  · cases hb : w.locked
    · rcases htdw with ht | ht
      · simp [process_transaction, hb, ht, handle_deposit, hdup]
      · simp [process_transaction, hb, ht, handle_withdrawl, hdup]
    · rcases htdw with ht | ht <;> simp [process_transaction, hb, ht]
  · rcases httt with ht | ht | ht
    · simp only [process_transaction, ht, reduceCtorEq, or_self, and_false,
        if_false] at hsome
      cases hm : w.transactions tx.id with
      | none => simpa [handle_dispute, hm] using hsome
      | some tx0 =>
        refine insertTx_isSome_of_mem w tx.id tx0 { tx0 with disputed := true } hm id ?_
        cases ht0 : tx0.tx_type <;> simpa [handle_dispute, hm, ht0] using hsome
    · simp only [process_transaction, ht, reduceCtorEq, or_self, and_false,
        if_false] at hsome
      cases hm : w.transactions tx.id with
      | none => simpa [handle_resolve, hm] using hsome
      | some tx0 =>
        by_cases hd : tx0.disputed = false
        · simpa [handle_resolve, hm, hd] using hsome
        · refine insertTx_isSome_of_mem w tx.id tx0 { tx0 with disputed := false } hm id ?_
          cases ht0 : tx0.tx_type <;> simpa [handle_resolve, hm, hd, ht0] using hsome
    · simp only [process_transaction, ht, reduceCtorEq, or_self, and_false,
        if_false] at hsome
      cases hm : w.transactions tx.id with
      | none => simpa [handle_chargeback, hm] using hsome
      | some tx0 =>
        by_cases hd : tx0.disputed = false
        · simpa [handle_chargeback, hm, hd] using hsome
        · refine insertTx_isSome_of_mem w tx.id tx0 { tx0 with disputed := false } hm id ?_
          cases ht0 : tx0.tx_type <;> simpa [handle_chargeback, hm, hd, ht0] using hsome

/-- C7 witness: a repeated deposit of id 1 on the unlocked history
`{1 ↦ txC2}` fails with `DuplicateTransaction` and keeps the record. -/
theorem C7_history_unique_witness :
    (process_transaction wC2 txC2).1.transactions txC2.id = wC2.transactions txC2.id ∧
    (process_transaction wC2 txC2).2 = some (.duplicateTransaction txC2.id) := by
  have h := C7_history_unique.2.1 wC2 txC2 (Or.inl rfl) rfl
  exact ⟨h.1, by simpa using h.2⟩

/-- C8: the Output message computes each emitted row's `total` as
`available + held` at snapshot time, drains the shard's wallet map, and a
second Output on the drained shard yields an empty snapshot. -/
theorem C8_output_snapshot (a : WalletActor) (s : WalletState)
    (hs : s ∈ (handleOutput a).1) :
    s.wallet.total = s.wallet.available + s.wallet.held ∧
    (handleOutput a).2.wallets = [] ∧
    (handleOutput (handleOutput a).2).1 = [] := by
  refine ⟨?_, rfl, rfl⟩
  simp only [handleOutput, List.mem_map] at hs
  obtain ⟨p, hp, hq⟩ := hs
  rw [← hq]

/-- C8 witness: the single-wallet shard `aC8` emits a row whose total is
available + held, and is empty afterwards. -/
theorem C8_output_snapshot_witness :
    sC8.wallet.total = sC8.wallet.available + sC8.wallet.held ∧
    (handleOutput aC8).2.wallets = [] ∧
    (handleOutput (handleOutput aC8).2).1 = [] :=
  C8_output_snapshot aC8 sC8 (List.mem_singleton.mpr rfl)

/-- C9 counterexample: an output run whose first shard's ask fails does not
abort — it skips that shard and still returns the remaining shard's rows. -/
theorem C9_counterexample :
    TransactionProcessor.output [.error .fatalError, .ok [sC9]] = .ok [sC9] := rfl

/-- C9 (amended): in the processing phase a failed `tell` on a validated
record aborts the run with `FatalError`; in the output phase a failed `ask`
is skipped — the phase continues with the remaining shards and always
completes. -/
theorem C9_channel_failure_policy :
    (∀ tx rest tellOk, TransactionProcessor.validateAmount tx = none → tellOk tx = false →
      TransactionProcessor.process (tx :: rest) tellOk = .error .fatalError) ∧
    (∀ e rest, TransactionProcessor.output (.error e :: rest) =
      TransactionProcessor.output rest) ∧
    (∀ rs, ∃ ws, TransactionProcessor.output rs = .ok ws) := by
  refine ⟨fun tx rest tellOk hv htell => ?_, fun e rest => rfl, fun rs => ⟨_, rfl⟩⟩
  simp [TransactionProcessor.process, hv, htell]

/-- C9 witness: a failed tell of a valid deposit aborts with `FatalError`,
and a failed ask on the only shard merely yields the empty output. -/
theorem C9_channel_failure_policy_witness :
    TransactionProcessor.process [⟨.deposit, 1, 1, some 5, false⟩] (fun _ => false) =
      .error .fatalError ∧
    TransactionProcessor.output [.error .fatalError] = TransactionProcessor.output [] :=
  ⟨C9_channel_failure_policy.1 ⟨.deposit, 1, 1, some 5, false⟩ [] (fun _ => false)
      (by norm_num [TransactionProcessor.validateAmount]) rfl,
   C9_channel_failure_policy.2.1 .fatalError []⟩

end KrWallet
